import Mathlib

/-!
Verification of the conversational-agent turn pipeline
(`app/graph/nodes.py`, `app/graph/edges.py`, `app/graph/graph.py`,
`app/tools/executor.py`, `app/api/routes/chat.py`).

Python strings are modelled as Lean `String`s, operated on through their
`List Char` data so that all functions compute by plain list recursion.
Python `len` on a `str` counts code points, which matches `s.data.length`.
-/

namespace Lumi

/-- The three intents of `RouterOutput.intent`
(`Literal["chat", "rag", "tool"]`, nodes.py line 27). -/
inductive Intent where
  | chat
  | rag
  | tool
deriving DecidableEq, Repr

/-- Message roles: LangChain `HumanMessage` / `AIMessage` as used by the app. -/
inductive Role where
  | user
  | assistant
deriving DecidableEq, Repr

/-- One chat message (role plus content). -/
structure Msg where
  role : Role
  content : String
deriving DecidableEq, Repr

/-- Python `str.isspace` characters relevant to `str.strip()` with no
arguments (ASCII whitespace). -/
def isPySpace (c : Char) : Bool :=
  c = ' ' || c = '\t' || c = '\n' || c = '\r' || c = '\x0b' || c = '\x0c'

/-- Strip characters satisfying `p` from both ends of a character list,
like Python `str.strip`. -/
def stripListBy (p : Char → Bool) (l : List Char) : List Char :=
  ((l.dropWhile p).reverse.dropWhile p).reverse

/-- Python `str.strip()` (no arguments): strip whitespace from both ends. -/
def pyStrip (s : String) : String :=
  ⟨stripListBy isPySpace s.data⟩

/-- The quote characters of nodes.py line 85,
`quote_chars = "'\"`''...「」『』"`: the literal holds ASCII `'`, `"`,
a backtick, further ASCII `'` and `"` repetitions, and the four corner
brackets U+300C..U+300F.  As a set: -/
def quoteChars : List Char :=
  ['\'', '"', '`', '「', '」', '『', '』']

/-- `tool_name.strip(quote_chars)` (nodes.py line 86). -/
def stripQuoteEnds (s : String) : String :=
  ⟨stripListBy (fun c => quoteChars.contains c) s.data⟩

/-- The loop `for char in quote_chars: tool_name = tool_name.replace(char, "")`
(nodes.py lines 87-88): remove every remaining quote character. -/
def removeQuoteChars (s : String) : String :=
  ⟨s.data.filter (fun c => !quoteChars.contains c)⟩

/-- `tool_name.split(sep)[0]`: the text before the first occurrence of `sep`. -/
def takeBeforeChar (sep : Char) (s : String) : String :=
  ⟨s.data.takeWhile (fun c => c ≠ sep)⟩

/-- Whether the string contains the character (Python `sep in tool_name`). -/
def containsChar (sep : Char) (s : String) : Bool :=
  s.data.any (fun c => c = sep)

/-- The quote-stripping and truncation part of the router's sanitization
(nodes.py lines 84-95), applied when the name was non-empty and at most
50 characters long:
trim whitespace, strip quote characters from both ends, remove all
remaining quote characters, then keep only the (re-trimmed) text before
the first comma, and then before the first question mark. -/
def sanitizeShort (s : String) : String :=
  let t := pyStrip s
  let t := stripQuoteEnds t
  let t := removeQuoteChars t
  let t := if containsChar ',' t then pyStrip (takeBeforeChar ',' t) else t
  let t := if containsChar '?' t then pyStrip (takeBeforeChar '?' t) else t
  t

/-- The full `tool_name` cleanup of nodes.py lines 76-95.
`if tool_name:` is Python truthiness, so `None` and `""` both skip the
block (`""` is returned unchanged); a name longer than 50 characters is
set to `None`; otherwise the quote-stripping/truncation pipeline runs. -/
def sanitizeToolName : Option String → Option String
  | none => none
  | some s =>
      if s = "" then some s
      else if 50 < s.data.length then none
      else some (sanitizeShort s)

/-- The whitelist `valid_tools` (nodes.py lines 98-103). -/
def validTools : List String :=
  ["get_schedule", "send_fan_letter", "recommend_song", "get_weather"]

/-- The pair of locals `(result_intent, tool_name)` as they stand after the
whitelist check of nodes.py lines 105-114.  These locals are computed by
`router_node` but — see its definition below — are NOT what the function
returns. -/
def routerLocals (intent : Intent) (rawName : Option String) :
    Intent × Option String :=
  let toolName := sanitizeToolName rawName
  match intent with
  | .tool =>
      match toolName with
      | none => (.chat, none)
      | some t =>
          if t = "" then (.chat, some t)
          else if validTools.contains t then (.tool, some t)
          else (.chat, none)
  | i => (i, toolName)

/-! ## Tool executor (`app/tools/executor.py`) -/

/-- Tool arguments: the `tool_args` dict.  The operations in executor.py read
only string-valued entries (`start_date`, `end_date`, `event_type`, `mood`,
`category`, `message`), so the dict is modelled as a string-keyed,
string-valued association list. -/
abbrev ToolArgs := List (String × String)

/-- Python `args.get(key)`: `None` when the key is absent. -/
def argGet (args : ToolArgs) (key : String) : Option String :=
  (args.find? (fun kv => kv.fst = key)).map (fun kv => kv.snd)

/-- Python `args.get(key, default)`. -/
def argGetD (args : ToolArgs) (key : String) (dflt : String) : String :=
  (argGet args key).getD dflt

/-- The `data` payloads built by the executor's operations.  The weather
snapshot's `wind_speed` field is a Python float (3.2) and is not modelled;
no theorem depends on the snapshot's contents. -/
inductive ToolData where
  | scheduleEmpty (message : String)
  | schedules (schedules : List String) (count : Nat)
  | song (title : String) (album : String) (mood : String)
  | weather (location : String) (temperature : Int) (condition : String)
      (humidity : Nat)
deriving DecidableEq, Repr

/-- The structured result dict every executor operation returns.  Fields
`data`, `error` and `mock` are present only in some of the literal dicts of
executor.py; absence is modelled as `none` / `false`. -/
structure ToolResult where
  success : Bool
  data : Option ToolData := none
  error : Option String := none
  mock : Bool := false
deriving DecidableEq, Repr

/-- `LUMI_SONGS["happy"]` (executor.py lines 20-26). -/
def lumiSongsHappy : List (String × String) :=
  [("Shine Bright", "First Light"),
   ("Happy Day", "Luminous"),
   ("Dancing Star", "First Light")]

/-- The `LUMI_SONGS` dict: `"happy"` is its only key. -/
def lumiSongs (mood : String) : Option (List (String × String)) :=
  if mood = "happy" then some lumiSongsHappy else none

/-- Outcomes of the external collaborators the executor calls.
`scheduleResult` is the outcome of
`ScheduleRepository.get_schedues(start_date, end_date, event_type)`
(`app/repositories/schedule.py` is external to the modelled core): `.ok`
with the returned schedule rows, or `.error` with the exception text.
`songIndex` resolves `random.choice` to the chosen position. -/
structure ToolEnv where
  scheduleResult : Option String → Option String → Option String →
    Except String (List String)
  songIndex : Nat

/-- Python `str(x)` on an optional string, as interpolated into the
unknown-tool error message (`None` for a missing name). -/
def pyShowOpt : Option String → String
  | none => "None"
  | some s => s

/-- `ToolExecutor._get_schedule` (executor.py lines 81-109).  Note the source
guards the passed `event_type` with `event_type if event_type != all else
None`, comparing the string against the Python builtin `all`, which is always
true — so `event_type` is always passed through unchanged. -/
def getScheduleTool (env : ToolEnv) (args : ToolArgs) : ToolResult :=
  let start_date := argGet args "start_date"
  let end_date := argGet args "end_date"
  let event_type := argGetD args "event_type" "all"
  match env.scheduleResult start_date end_date (some event_type) with
  | .error e => { success := false, error := some e }
  | .ok schedules =>
      if schedules.isEmpty then
        { success := true,
          data := some (.scheduleEmpty "해당 기간에 예정된 스케줄이 없어요") }
      else
        { success := true,
          data := some (.schedules schedules schedules.length) }

/-- `ToolExecutor._recommend_song` (executor.py lines 134-150).
`random.choice(songs)` returns an element of the non-empty `songs` list;
the choice is resolved by `env.songIndex` modulo the list length. -/
def recommendSongTool (env : ToolEnv) (args : ToolArgs) : ToolResult :=
  let mood := argGetD args "mood" "happy"
  let songs := (lumiSongs mood).getD lumiSongsHappy
  let selected := songs.getD (env.songIndex % songs.length) ("", "")
  { success := true,
    data := some (.song selected.fst selected.snd mood),
    mock := true }

/-- `ToolExecutor._get_weather` (executor.py lines 152-161): the fixed
`MOCK_WEATHER` snapshot. -/
def getWeatherTool : ToolResult :=
  { success := true,
    data := some (.weather "서울" 5 "맑음" 45),
    mock := true }

/-- The exception text produced when `execute` reaches the
`send_fan_letter` arm: the arm calls `self._send_fan_letter(...)` but the
class defines the method as `send_fan_letter` (executor.py line 111, no
leading underscore), so attribute lookup raises `AttributeError`, caught by
the surrounding `except Exception`.  The CPython message quotes the class
and attribute names; the quotes are elided here. -/
def sendFanLetterAttrError : String :=
  "AttributeError: ToolExecutor object has no attribute _send_fan_letter"

/-- `ToolExecutor.execute` (executor.py lines 48-79): a closed `match` over
the tool name inside a `try`/`except Exception` that converts any fault into
`{"success": False, "error": str(e)}`.  The `send_fan_letter` arm always
takes the exception path (see `sendFanLetterAttrError`), so fan-letter
persistence is unreachable here.  `session_id` and `user_id` would be
consumed only by that unreachable call. -/
def executeTool (env : ToolEnv) (tool_name : Option String) (args : ToolArgs)
    (session_id : String) (user_id : Option String) : ToolResult :=
  match tool_name with
  | some "get_schedule" => getScheduleTool env args
  | some "send_fan_letter" =>
      { success := false, error := some sendFanLetterAttrError }
  | some "recommend_song" => recommendSongTool env args
  | some "get_weather" => getWeatherTool
  | other =>
      { success := false, error := some ("알 수 없는 Tool: " ++ pyShowOpt other) }

/-! ## Turn state (`app/graph/state.py`) and nodes (`app/graph/nodes.py`) -/

/-- `LumiState` (state.py): the per-turn state record. -/
structure LumiState where
  messages : List Msg
  intent : Option Intent
  retrieved_docs : List String
  tool_name : Option String
  tool_args : Option ToolArgs
  tool_result : Option ToolResult
  session_id : String
  user_id : Option String
deriving Repr

/-- `RouterOutput` (nodes.py lines 19-35): the structured classifier guess. -/
structure RouterOutput where
  intent : Intent
  tool_name : Option String := none
  tool_args : Option ToolArgs := none
deriving Repr

/-- The dict `router_node` returns. -/
structure RouterUpdate where
  intent : Intent
  tool_name : Option String
  tool_args : Option ToolArgs
deriving Repr

/-- `router_node` (nodes.py lines 53-129), as a function of the structured
classifier call's outcome (the call itself is the external LLM).  On a
successful call the function computes the sanitized locals (`routerLocals`),
but its `return` statement (lines 121-125) uses the raw `result.intent`,
`result.tool_name` and `result.tool_args`, so the sanitized values are
discarded.  On any exception it returns
`{"intent": "chat", "tool_name": None, "tool_args": None}` (lines 126-129). -/
def router_node (call : Except String RouterOutput) : RouterUpdate :=
  match call with
  | .ok result =>
      let _locals := routerLocals result.intent result.tool_name
      { intent := result.intent,
        tool_name := result.tool_name,
        tool_args := result.tool_args }
  | .error _ =>
      { intent := .chat, tool_name := none, tool_args := none }

/-- One search hit as returned by `RAGRepository.search_similar`; `rag_node`
reads only its `content` field. -/
structure RagDoc where
  content : String
deriving Repr

/-- The fixed fallback passages of the `except` branch of `rag_node`
(nodes.py lines 155-160). -/
def fallbackDocs : List String :=
  ["루미는 프리즘 행성 출신 외계인 공주야",
   "루미의 팬덤은 루미너스야"]

/-- `rag_node` (nodes.py lines 132-162): on a successful search, the
`content` of each hit, in order; on any exception, the fixed fallback
passages.  Returns the `retrieved_docs` update. -/
def rag_node (searchResult : Except String (List RagDoc)) : List String :=
  match searchResult with
  | .ok docs => docs.map (fun d => d.content)
  | .error _ => fallbackDocs

/-- `tool_node` (nodes.py lines 165-187): executes the state's tool
(`state["tool_args"] or {}` supplies an empty dict for a missing/empty args
value) and returns the `tool_result` update. -/
def tool_node (env : ToolEnv) (s : LumiState) : ToolResult :=
  let tool_args : ToolArgs := (s.tool_args).getD []
  executeTool env s.tool_name tool_args s.session_id s.user_id

/-! ## Response composition (`response_node`, nodes.py lines 190-251).
The prompt template constants live in `app/core/prompts.py`, which is not
part of the modelled sources; they are modelled from the spec as opaque
text with, for the RAG template, one `context` hole. -/

/-- Modelled from the spec: `RESPONSE_PROMPT` from the absent
`app/core/prompts.py` — §4.5, the base persona instructions used verbatim
for `chat` turns. -/
def RESPONSE_PROMPT : String := "[LUMI_PERSONA_INSTRUCTIONS]"

/-- Modelled from the spec: the text of `RAG_RESPONCE_PROMPT` before its
`{context}` hole (`app/core/prompts.py` is absent; §4.5 — "join retrieved
passages into a grounding block"). -/
def RAG_RESPONCE_PROMPT_before : String := "[RAG_INSTRUCTIONS]\n"

/-- Modelled from the spec: the text of `RAG_RESPONCE_PROMPT` after its
`{context}` hole. -/
def RAG_RESPONCE_PROMPT_after : String := "\n[RAG_INSTRUCTIONS_END]"

/-- `RAG_RESPONCE_PROMPT.format(context=context)`: the template with the
joined passages substituted into its hole. -/
def ragResponsePromptWith (context : String) : String :=
  RAG_RESPONCE_PROMPT_before ++ context ++ RAG_RESPONCE_PROMPT_after

/-- Python `"\n".join(l)`. -/
def joinNewline (l : List String) : String :=
  match l with
  | [] => ""
  | x :: xs => xs.foldl (fun acc s => acc ++ "\n" ++ s) x

/-- A rendering of `json.dumps(tool_result, ensure_ascii=False, indent=2)`
(nodes.py line 213).  The exact JSON indentation of `json.dumps` is not
reproduced (no theorem depends on it); the rendering is injective enough to
carry the result into the prompt. -/
def toolResultRendered (r : ToolResult) : String :=
  "\x7b success: " ++ (if r.success then "true" else "false") ++
    ", data: " ++ (match r.data with
      | none => "null"
      | some d => reprStr d) ++
    ", error: " ++ (match r.error with
      | none => "null"
      | some e => e) ++
    ", mock: " ++ (if r.mock then "true" else "false") ++ " \x7d"

/-- The `result_context` f-string of nodes.py lines 211-220 (the
triple-quoted literal's leading indentation is not reproduced). -/
def toolResultContext (tool_name : Option String) (tool_result : Option ToolResult) :
    String :=
  "\n## 조회 결과 (내부 참고용, 절대 그대로 출력하지 마!)\n" ++
  "tool_name : " ++ pyShowOpt tool_name ++ ", tool_result : " ++
  (match tool_result with
   | none => "null"
   | some r => toolResultRendered r) ++
  "\n\n## 규칙\n" ++
  "- 위 결과를 바탕으로 루미답게 친근하게 안내해줘\n" ++
  "- 성공한 경우: 결과를 자연스럽게 전달 (예: \"이번 주 금요일에 뮤직뱅크 나와!\")\n" ++
  "- 실패한 경우: 부드럽게 안내 (예: \"흠, 지금은 일정이 없나봐!\")\n" ++
  "- \"get_schedule\", \"tool\", \"실행 결과\" 같은 기술 용어 절대 금지!\n"

/-- The `system_prompt` selection of `response_node` (nodes.py lines
201-224): `rag` joins the retrieved passages into the RAG template, `tool`
appends the tool-result context to the base prompt, anything else uses the
base prompt alone. -/
def responseSystemPrompt (s : LumiState) : String :=
  match s.intent with
  | some .rag => ragResponsePromptWith (joinNewline s.retrieved_docs)
  | some .tool => RESPONSE_PROMPT ++ toolResultContext s.tool_name s.tool_result
  | _ => RESPONSE_PROMPT

/-- The last `n` elements of a list (Python `l[-n:]`). -/
def lastN (n : Nat) (l : List α) : List α :=
  l.drop (l.length - n)

/-- The history block of nodes.py lines 226-236:
`state["messages"][:-1][-6:]` when more than one message exists, rendered
one message per line with role labels, wrapped in the `## 이전 대화` header;
empty otherwise. -/
def historyText (messages : List Msg) : String :=
  let history_messages :=
    if 1 < messages.length then lastN 6 messages.dropLast else []
  if history_messages.isEmpty then ""
  else
    let history_parts := history_messages.map (fun m =>
      (match m.role with
       | .user => "사용자"
       | .assistant => "루미") ++ ": " ++ m.content)
    "\n\n ## 이전 대화: \n" ++ joinNewline history_parts ++ "\n"

/-- `response_node` (nodes.py lines 190-251), as a function of the final
generation call's outcome: a successful call yields the generated answer as
the assistant message; an exception yields the apology message embedding the
fault description (lines 246-251).  Returns the `messages` update (merged by
`add_messages`, i.e. appended). -/
def response_node (composeResult : Except String String) : List Msg :=
  match composeResult with
  | .ok text => [⟨.assistant, text⟩]
  | .error e => [⟨.assistant, "미안, 오류가 생겼어! 다시 말해줄래? (" ++ e ++ ")"⟩]

/-! ## Graph wiring (`app/graph/edges.py`, `app/graph/graph.py`) -/

/-- The `Literal["rag", "tool", "response"]` returned by `route_by_intent`. -/
inductive Route where
  | rag
  | tool
  | response
deriving DecidableEq, Repr

/-- `route_by_intent` (edges.py): `rag` and `tool` intents select their
branches; anything else (including an unset intent) goes straight to
`response`. -/
def route_by_intent (s : LumiState) : Route :=
  match s.intent with
  | some .rag => .rag
  | some .tool => .tool
  | _ => .response

/-- The outcomes of the four external calls a turn can make: the router's
structured classifier call, the RAG similarity search, the tool
collaborators, and the final generation call. -/
structure Env where
  routerCall : Except String RouterOutput
  ragSearch : Except String (List RagDoc)
  toolEnv : ToolEnv
  composeCall : Except String String

/-- The state after the router update and the selected branch, i.e. the
state `response_node` runs on: START → router → (rag | tool | nothing),
with each node's returned dict merged into the state (keys overwritten). -/
def preComposeState (env : Env) (s0 : LumiState) : LumiState :=
  let ru := router_node env.routerCall
  let s1 := { s0 with
    intent := some ru.intent,
    tool_name := ru.tool_name,
    tool_args := ru.tool_args }
  match route_by_intent s1 with
  | .rag => { s1 with retrieved_docs := rag_node env.ragSearch }
  | .tool => { s1 with tool_result := some (tool_node env.toolEnv s1) }
  | .response => s1

/-- The compiled graph of graph.py run on an initial state:
START → router → (rag | tool | response) → response → END.  The final
node's `messages` update is merged by `add_messages`, i.e. appended. -/
def runGraph (env : Env) (s0 : LumiState) : LumiState :=
  let s2 := preComposeState env s0
  { s2 with messages := s2.messages ++ response_node env.composeCall }

/-! ## Chat routes (`app/api/routes/chat.py`) -/

/-- `SESSION_STORE: dict[str, list[BaseMessage]]` (chat.py line 22), as an
association list with Python-dict assignment semantics. -/
abbrev SessionStore := List (String × List Msg)

/-- `SESSION_STORE.get(k, default)`-style lookup (`none` when absent). -/
def storeGet (st : SessionStore) (k : String) : Option (List Msg) :=
  (st.find? (fun kv => kv.fst = k)).map (fun kv => kv.snd)

/-- Dict assignment `st[k] = v`: overwrite in place, or append a new key. -/
def storeSet (st : SessionStore) (k : String) (v : List Msg) : SessionStore :=
  if (st.find? (fun kv => kv.fst = k)).isSome then
    st.map (fun kv => if kv.fst = k then (k, v) else kv)
  else
    st ++ [(k, v)]

/-- `ChatRequest` (schemas/chat.py): message, session id, optional user id.
The length bounds are enforced by pydantic validation at the transport
boundary. -/
structure ChatRequest where
  message : String
  session_id : String
  user_id : Option String := none

/-- `ChatResponse` (schemas/chat.py).  The `timestamp` field (real time) is
not modelled. -/
structure ChatResponse where
  message : String
  tool_used : Option String
  cached : Bool
deriving DecidableEq, Repr

/-- The `initial_state` dict of the non-streaming `chat` handler (chat.py
lines 40-49): its `messages` list holds only the current user message —
`SESSION_STORE` is not consulted. -/
def chatInitialState (req : ChatRequest) : LumiState :=
  { messages := [⟨.user, req.message⟩],
    intent := none,
    retrieved_docs := [],
    tool_name := none,
    tool_args := none,
    tool_result := none,
    session_id := req.session_id,
    user_id := req.user_id }

/-- The non-streaming `chat` handler (chat.py lines 25-70): run the graph on
the current message only, answer with the last message's content and the
final state's `tool_name`; fewer than two final messages raise
(surfaced as the HTTP 500, modelled as `.error`).  The handler never reads
or writes `SESSION_STORE`; the store is threaded through to state that it
is returned unchanged. -/
def chatEndpoint (env : Env) (store : SessionStore) (req : ChatRequest) :
    Except String ChatResponse × SessionStore :=
  let final_state := runGraph env (chatInitialState req)
  let out : Except String ChatResponse :=
    if final_state.messages.length < 2 then .error "응답 메시지가 없습니다."
    else
      .ok { message := (final_state.messages.getLastD ⟨.user, ""⟩).content,
            tool_used := final_state.tool_name,
            cached := false }
  (out, store)

/-! ## Streaming (`stream_with_status` and `generate`, chat.py lines 80-220).
The LangGraph runtime's `astream(..., stream_mode=["updates", "messages"])`
output is modelled as a list of events: `updates` carries the node-name →
returned-update-dict pairs of one step (one per node completion), `message`
carries one `(msg, metadata)` pair with the producing node's name, whether
the message is an `AIMessageChunk`, and its content. -/

/-- A node's returned update dict, as carried by an `updates` event.  Every
node of nodes.py returns a non-empty dict, so the truthiness test
`node_output` in chat.py line 144 always passes. -/
inductive NodeUpd where
  | router (u : RouterUpdate)
  | rag (docs : List String)
  | tool (r : ToolResult)
  | response (msgs : List Msg)

/-- `node_output.get("tool_name")` (chat.py line 145): only the router's
update dict has a `tool_name` key — `tool_node` returns
`{"tool_result": result}` (nodes.py line 187), so its dict yields `None`. -/
def updToolName : NodeUpd → Option String
  | .router u => u.tool_name
  | _ => none

/-- One event of the merged `astream` output. -/
inductive GEvent where
  | updates (items : List (String × NodeUpd))
  | message (node : String) (isChunk : Bool) (content : String)

/-- The `(status, token, final_response, tool_used)` 4-tuple yielded by
`stream_with_status`. -/
abbrev SWSTuple := Option String × Option String × Option String × Option String

/-- The `node_status` dict (chat.py lines 123-128). -/
def nodeStatus (node : String) : Option String :=
  if node = "router" then some "루미 생각 중..."
  else if node = "rag" then some "정보 검색 중..."
  else if node = "tool" then some "도구 실행 중..."
  else if node = "response" then some "응답 작성 중..."
  else none

/-- The loop state of `stream_with_status`: `final_response`,
`final_tool_name`, `current_node`, plus the tuples yielded so far. -/
structure SWSAcc where
  final_response : String
  final_tool_name : Option String
  current_node : Option String
  out : List SWSTuple

/-- Processing of one `(node_name, node_output)` item of an `updates` event
(chat.py lines 136-145): emit the node's status label on first entry into a
labelled node, then record `node_output.get("tool_name")` when the node is
`tool`. -/
def stepUpdItem (acc : SWSAcc) (item : String × NodeUpd) : SWSAcc :=
  let node_name := item.fst
  let acc1 :=
    match nodeStatus node_name with
    | some label =>
        if some node_name ≠ acc.current_node then
          { acc with
            current_node := some node_name,
            out := acc.out ++ [(some label, none, none, none)] }
        else acc
    | none => acc
  if node_name = "tool" then
    { acc1 with final_tool_name := updToolName item.snd }
  else acc1

/-- Processing of one `messages` event (chat.py lines 148-163): only
`AIMessageChunk`s from the `response` node count; empty content is skipped
(`token = msg.content or ""; if token:`); otherwise the token is appended to
`final_response` and yielded. -/
def stepMsg (acc : SWSAcc) (node : String) (isChunk : Bool) (content : String) :
    SWSAcc :=
  if node ≠ "response" then acc
  else if isChunk then
    if content ≠ "" then
      { acc with
        final_response := acc.final_response ++ content,
        out := acc.out ++ [(none, some content, none, none)] }
    else acc
  else acc

/-- One iteration of the `async for` of chat.py lines 130-163. -/
def stepGEvent (acc : SWSAcc) : GEvent → SWSAcc
  | .updates items => items.foldl stepUpdItem acc
  | .message node isChunk content => stepMsg acc node isChunk content

/-- The loop state after consuming the whole stream. -/
def swsAcc (trace : List GEvent) : SWSAcc :=
  trace.foldl stepGEvent ⟨"", none, none, []⟩

/-- `session_id = session_id or "default"` (chat.py line 101). -/
def effectiveSessionId (session_id : String) : String :=
  if session_id = "" then "default" else session_id

/-- The `messages` list of the streaming handler's `initial_state` (chat.py
lines 102-106): the stored history of the session followed by the current
user message. -/
def swsInitialMessages (store : SessionStore) (session_id message : String) :
    List Msg :=
  (storeGet store (effectiveSessionId session_id)).getD [] ++ [⟨.user, message⟩]

/-- `stream_with_status` (chat.py lines 80-174) over a given stream: the
yielded 4-tuples in order, and the `SESSION_STORE` after the run.  After the
loop, when `final_response` is non-empty, the current user message and the
assistant message are appended (in that order) to the session's entry
(created empty first if absent, lines 165-172); then the final tuple is
yielded. -/
def stream_with_status (store : SessionStore) (message session_id : String)
    (trace : List GEvent) : List SWSTuple × SessionStore :=
  let sid := effectiveSessionId session_id
  let acc := swsAcc trace
  let store2 :=
    if acc.final_response ≠ "" then
      storeSet store sid
        ((storeGet store sid).getD [] ++
          [⟨.user, message⟩, ⟨.assistant, acc.final_response⟩])
    else store
  (acc.out ++ [(none, none, some acc.final_response, acc.final_tool_name)],
   store2)

/-- The serialized SSE events of `generate` (chat.py lines 185-210),
by payload: `thinking`, `token`, `response`, `error`, `done`. -/
inductive SEvent where
  | thinking (content : String)
  | token (content : String)
  | response (content : String) (tool_used : Option String)
  | error (msg : String)
  | done
deriving DecidableEq, Repr

/-- Python truthiness of an optional string (`None` and `""` are falsy). -/
def optTruthy : Option String → Bool
  | none => false
  | some s => s ≠ ""

/-- The `if status: / if token: / if final:` body of the `generate` loop
(chat.py lines 191-202) applied to one tuple. -/
def sseOfTuple (t : SWSTuple) : List SEvent :=
  (if optTruthy t.fst then [.thinking (t.fst.getD "")] else []) ++
  (if optTruthy t.snd.fst then [.token (t.snd.fst.getD "")] else []) ++
  (if optTruthy t.snd.snd.fst then
    [.response (t.snd.snd.fst.getD "") t.snd.snd.snd] else [])

/-- The full event sequence of a fault-free `generate` run (chat.py lines
185-205): the serialized tuples in order, closed by `done`; paired with the
resulting session store. -/
def generateEvents (store : SessionStore) (message session_id : String)
    (trace : List GEvent) : List SEvent × SessionStore :=
  let res := stream_with_status store message session_id trace
  ((res.fst.map sseOfTuple).flatten ++ [.done], res.snd)

/-- The event sequence of a `generate` run whose inner iteration raises
after `k` tuples were consumed: the `except` branch (chat.py lines 207-210)
emits one `error` event and then `done`.  Only the event sequence is
modelled; whether the interrupted run already performed its store append
depends on where the fault struck. -/
def generateEventsFaulty (store : SessionStore) (message session_id : String)
    (trace : List GEvent) (k : Nat) (err : String) : List SEvent :=
  let tuples := (stream_with_status store message session_id trace).fst
  ((tuples.take k).map sseOfTuple).flatten ++ [.error err, .done]

/-! ## Stream-shape vocabulary used by the ordering theorems -/

/-- A graph event that contributes a visible token: a non-empty
`AIMessageChunk` from the `response` node. -/
def isRespChunk : GEvent → Bool
  | .message node isChunk content => node = "response" && isChunk && content ≠ ""
  | .updates _ => false

/-- A graph `updates` event carrying an item for one of the pre-composing
nodes (`router`, `rag`, `tool`). -/
def earlyStageUpd : GEvent → Bool
  | .updates items =>
      items.any (fun it => ["router", "rag", "tool"].contains it.fst)
  | .message _ _ _ => false

/-- The status labels of the pre-composing stages. -/
def earlyLabels : List String :=
  ["루미 생각 중...", "정보 검색 중...", "도구 실행 중..."]

/-- A tuple yielded inside the loop as a status notification:
`(some label, None, None, None)` with one of the four stage labels. -/
def isLoopStatus : SWSTuple → Bool
  | (some l, none, none, none) =>
      ["루미 생각 중...", "정보 검색 중...", "도구 실행 중...", "응답 작성 중..."].contains l
  | _ => false

/-- A tuple yielded inside the loop as a token: `(None, some c, None, None)`
with non-empty `c`. -/
def isLoopToken : SWSTuple → Bool
  | (none, some c, none, none) => c ≠ ""
  | _ => false

/-- Whether a yielded tuple carries a token payload. -/
def isTokenTuple (t : SWSTuple) : Bool :=
  t.snd.fst.isSome

/-- Whether a yielded tuple is a status notification of a pre-composing
stage. -/
def isEarlyStatusTuple (t : SWSTuple) : Bool :=
  match t.fst with
  | some l => earlyLabels.contains l
  | none => false

/-- The concatenation of the token payloads of a tuple list, in order. -/
def tupleTokens : List SWSTuple → String
  | [] => ""
  | t :: ts => (t.snd.fst.getD "") ++ tupleTokens ts

/-- A serialized `token` event. -/
def isTokenEv : SEvent → Bool
  | .token _ => true
  | _ => false

/-- A serialized `thinking` event naming a pre-composing stage. -/
def isEarlyThinking : SEvent → Bool
  | .thinking l => earlyLabels.contains l
  | _ => false

/-- A serialized `response` (Final) event. -/
def isRespEv : SEvent → Bool
  | .response _ _ => true
  | _ => false

/-- The content of a serialized `token` event. -/
def tokenContent : SEvent → Option String
  | .token c => some c
  | _ => none

/-! ## Helper lemmas -/

theorem find?_replace_self (st : SessionStore) (k : String) (v : List Msg) :
    List.find? (fun kv => kv.fst = k)
        (st.map (fun kv => if kv.fst = k then (k, v) else kv)) =
      (List.find? (fun kv => kv.fst = k) st).map (fun _ => (k, v)) := by
  induction st with
  | nil => rfl
  | cons hd tl ih =>
      by_cases hk : hd.fst = k
      · simp [List.find?_cons, hk]
      · simp only [List.map_cons, if_neg hk, List.find?_cons,
          decide_eq_false hk, Bool.false_eq_true, if_neg]
        exact ih

theorem find?_replace_other (st : SessionStore) (k k' : String) (v : List Msg)
    (hne : k' ≠ k) :
    List.find? (fun kv => kv.fst = k')
        (st.map (fun kv => if kv.fst = k then (k, v) else kv)) =
      List.find? (fun kv => kv.fst = k') st := by
  induction st with
  | nil => rfl
  | cons hd tl ih =>
      by_cases hk : hd.fst = k
      · have h1 : ¬((k, v).fst = k') := fun hh => hne (hh.symm)
        have h2 : ¬(hd.fst = k') := by rw [hk]; exact fun hh => hne hh.symm
        simp only [List.map_cons, if_pos hk, List.find?_cons,
          decide_eq_false h1, decide_eq_false h2, Bool.false_eq_true, if_neg]
        exact ih
      · simp only [List.map_cons, if_neg hk, List.find?_cons]
        cases hd' : (decide (hd.fst = k')) <;> simp [ih]

theorem storeGet_set_self (st : SessionStore) (k : String) (v : List Msg) :
    storeGet (storeSet st k v) k = some v := by
  unfold storeSet
  by_cases h : (st.find? (fun kv => kv.fst = k)).isSome
  · simp only [if_pos h, storeGet, find?_replace_self]
    cases hfind : st.find? (fun kv => kv.fst = k) with
    | none => rw [hfind] at h; simp at h
    | some x => simp
  · have hnone : st.find? (fun kv => kv.fst = k) = none := by
      cases hfind : st.find? (fun kv => kv.fst = k) with
      | none => rfl
      | some x => rw [hfind] at h; simp at h
    simp [if_neg h, storeGet, List.find?_append, hnone, List.find?]

theorem storeGet_set_other (st : SessionStore) (k k' : String) (v : List Msg)
    (hne : k' ≠ k) :
    storeGet (storeSet st k v) k' = storeGet st k' := by
  unfold storeSet
  by_cases h : (st.find? (fun kv => kv.fst = k)).isSome
  · simp only [if_pos h, storeGet, find?_replace_other st k k' v hne]
  · simp only [if_neg h, storeGet, List.find?_append]
    have : List.find? (fun kv => kv.fst = k') [(k, v)] = none := by
      simp [List.find?, Ne.symm hne]
    rw [this]
    cases hfind : st.find? (fun kv => kv.fst = k') <;> simp

theorem tupleTokens_append (a b : List SWSTuple) :
    tupleTokens (a ++ b) = tupleTokens a ++ tupleTokens b := by
  induction a with
  | nil => simp [tupleTokens]
  | cons t ts ih => simp [tupleTokens, ih, String.append_assoc]

theorem nodeStatus_mem (n l : String) (h : nodeStatus n = some l) :
    (["루미 생각 중...", "정보 검색 중...", "도구 실행 중...", "응답 작성 중..."] :
      List String).contains l = true := by
  unfold nodeStatus at h
  repeat' split at h
  all_goals simp_all

theorem nodeStatus_not_early (n l : String)
    (hn : (["router", "rag", "tool"] : List String).contains n = false)
    (h : nodeStatus n = some l) : earlyLabels.contains l = false := by
  unfold nodeStatus at h
  repeat' split at h
  all_goals first
    | (injection h with h; subst h; decide)
    | simp_all [earlyLabels]

/-- What one `updates` item contributes: possibly one status tuple, no
token, no change to `final_response`. -/
theorem stepUpdItem_spec (acc : SWSAcc) (item : String × NodeUpd) :
    ∃ e, (stepUpdItem acc item).out = acc.out ++ e
      ∧ (stepUpdItem acc item).final_response = acc.final_response
      ∧ (∀ t ∈ e, isLoopStatus t = true ∧ isTokenTuple t = false)
      ∧ ((["router", "rag", "tool"] : List String).contains item.fst = false →
          ∀ t ∈ e, isEarlyStatusTuple t = false)
      ∧ tupleTokens e = "" := by
  unfold stepUpdItem
  cases h : nodeStatus item.fst with
  | none =>
      have hnt : item.fst ≠ "tool" := by
        intro ht; rw [ht] at h; simp [nodeStatus] at h
      refine ⟨[], ?_, ?_, by simp, by simp, rfl⟩ <;> simp [hnt, h]
  | some label =>
      by_cases hc : some item.fst ≠ acc.current_node
      · have hmem := nodeStatus_mem item.fst label h
        refine ⟨[(some label, none, none, none)], ?_, ?_, ?_, ?_, rfl⟩
        · simp only [h]
          split <;> simp [hc]
        · simp only [h]
          split <;> simp [hc]
        · intro t htm
          rw [List.mem_singleton.mp htm]
          refine ⟨by simpa [isLoopStatus] using hmem, rfl⟩
        · intro hn t htm
          rw [List.mem_singleton.mp htm]
          simpa [isEarlyStatusTuple] using nodeStatus_not_early item.fst label hn h
      · refine ⟨[], ?_, ?_, by simp, by simp, rfl⟩ <;>
          (simp only [h]
           split <;> simp [hc])

/-- What one `updates` event contributes: status tuples only. -/
theorem foldUpd_spec (items : List (String × NodeUpd)) (acc : SWSAcc) :
    ∃ e, (items.foldl stepUpdItem acc).out = acc.out ++ e
      ∧ (items.foldl stepUpdItem acc).final_response = acc.final_response
      ∧ (∀ t ∈ e, isLoopStatus t = true ∧ isTokenTuple t = false)
      ∧ ((∀ it ∈ items,
            (["router", "rag", "tool"] : List String).contains it.fst = false) →
          ∀ t ∈ e, isEarlyStatusTuple t = false)
      ∧ tupleTokens e = "" := by
  induction items generalizing acc with
  | nil => exact ⟨[], by simp [tupleTokens]⟩
  | cons it its ih =>
      obtain ⟨e1, ho1, hf1, hs1, he1, ht1⟩ := stepUpdItem_spec acc it
      obtain ⟨e2, ho2, hf2, hs2, he2, ht2⟩ := ih (stepUpdItem acc it)
      refine ⟨e1 ++ e2, ?_, ?_, ?_, ?_, ?_⟩
      · simp [List.foldl_cons, ho2, ho1]
      · simp [List.foldl_cons, hf2, hf1]
      · intro t htm
        rcases List.mem_append.mp htm with hm | hm
        · exact hs1 t hm
        · exact hs2 t hm
      · intro hall t htm
        rcases List.mem_append.mp htm with hm | hm
        · exact he1 (hall it (by simp)) t hm
        · exact he2 (fun x hx => hall x (by simp [hx])) t hm
      · rw [tupleTokens_append, ht1, ht2]; rfl

/-- What one `messages` event contributes: at most one token tuple. -/
theorem stepMsg_spec (acc : SWSAcc) (node : String) (isC : Bool)
    (content : String) :
    ∃ e, (stepMsg acc node isC content).out = acc.out ++ e
      ∧ (stepMsg acc node isC content).final_response =
          acc.final_response ++ tupleTokens e
      ∧ (∀ t ∈ e, isLoopToken t = true ∧ isEarlyStatusTuple t = false)
      ∧ (isRespChunk (.message node isC content) = false → e = []) := by
  unfold stepMsg
  by_cases hr : node = "response"
  · cases hic : isC with
    | false =>
        refine ⟨[], ?_, ?_, by simp, fun _ => rfl⟩ <;>
          simp [hr, tupleTokens, String.append_empty]
    | true =>
        by_cases hc : content = ""
        · refine ⟨[], ?_, ?_, by simp, fun _ => rfl⟩ <;>
            simp [hr, hc, tupleTokens, String.append_empty]
        · refine ⟨[(none, some content, none, none)], ?_, ?_, ?_, ?_⟩
          · simp [hr, hc]
          · simp [hr, hc, tupleTokens, String.append_empty]
          · intro t htm
            rw [List.mem_singleton.mp htm]
            exact ⟨by simp [isLoopToken, hc], rfl⟩
          · intro habs
            exfalso
            simp [isRespChunk, hr, hic, hc] at habs
  · refine ⟨[], ?_, ?_, by simp, fun _ => rfl⟩ <;>
      simp [hr, tupleTokens, String.append_empty]

/-- Conversion: an `updates` event that is not an early-stage update has no
early-stage item. -/
theorem earlyStageUpd_items (items : List (String × NodeUpd))
    (h : earlyStageUpd (.updates items) = false) :
    ∀ it ∈ items,
      (["router", "rag", "tool"] : List String).contains it.fst = false := by
  intro it hm
  simp only [earlyStageUpd, List.any_eq_false] at h
  simpa using h it hm

/-- What one stream event contributes to the yielded tuples. -/
theorem stepGEvent_spec (acc : SWSAcc) (ev : GEvent) :
    ∃ e, (stepGEvent acc ev).out = acc.out ++ e
      ∧ (stepGEvent acc ev).final_response = acc.final_response ++ tupleTokens e
      ∧ (∀ t ∈ e, isLoopStatus t = true ∨ isLoopToken t = true)
      ∧ (isRespChunk ev = false → ∀ t ∈ e, isTokenTuple t = false)
      ∧ (earlyStageUpd ev = false → ∀ t ∈ e, isEarlyStatusTuple t = false) := by
  cases ev with
  | updates items =>
      obtain ⟨e, ho, hf, hs, he, ht⟩ := foldUpd_spec items acc
      refine ⟨e, ho, ?_, ?_, ?_, ?_⟩
      · show (items.foldl stepUpdItem acc).final_response = _
        rw [hf, ht, String.append_empty]
      · exact fun t htm => Or.inl (hs t htm).1
      · exact fun _ t htm => (hs t htm).2
      · exact fun hearly => he (earlyStageUpd_items items hearly)
  | message node isC content =>
      obtain ⟨e, ho, hf, hs, hresp⟩ := stepMsg_spec acc node isC content
      refine ⟨e, ho, hf, ?_, ?_, ?_⟩
      · exact fun t htm => Or.inr (hs t htm).1
      · intro hrc
        rw [hresp hrc]
        intro t htm
        simp at htm
      · exact fun _ t htm => (hs t htm).2

/-- What a whole stream contributes, from an arbitrary loop state. -/
theorem swsFold_spec (evts : List GEvent) (acc : SWSAcc) :
    ∃ e, (evts.foldl stepGEvent acc).out = acc.out ++ e
      ∧ (evts.foldl stepGEvent acc).final_response =
          acc.final_response ++ tupleTokens e
      ∧ (∀ t ∈ e, isLoopStatus t = true ∨ isLoopToken t = true)
      ∧ ((∀ ev ∈ evts, isRespChunk ev = false) →
          ∀ t ∈ e, isTokenTuple t = false)
      ∧ ((∀ ev ∈ evts, earlyStageUpd ev = false) →
          ∀ t ∈ e, isEarlyStatusTuple t = false) := by
  induction evts generalizing acc with
  | nil =>
      exact ⟨[], by simp, by simp [tupleTokens, String.append_empty],
        by simp, by simp, by simp⟩
  | cons ev evts ih =>
      obtain ⟨e1, ho1, hf1, hs1, hnt1, hne1⟩ := stepGEvent_spec acc ev
      obtain ⟨e2, ho2, hf2, hs2, hnt2, hne2⟩ := ih (stepGEvent acc ev)
      refine ⟨e1 ++ e2, ?_, ?_, ?_, ?_, ?_⟩
      · simp [List.foldl_cons, ho2, ho1]
      · simp [List.foldl_cons, hf2, hf1, tupleTokens_append, String.append_assoc]
      · intro t htm
        rcases List.mem_append.mp htm with hm | hm
        · exact hs1 t hm
        · exact hs2 t hm
      · intro hall t htm
        rcases List.mem_append.mp htm with hm | hm
        · exact hnt1 (hall ev (by simp)) t hm
        · exact hnt2 (fun x hx => hall x (by simp [hx])) t hm
      · intro hall t htm
        rcases List.mem_append.mp htm with hm | hm
        · exact hne1 (hall ev (by simp)) t hm
        · exact hne2 (fun x hx => hall x (by simp [hx])) t hm

/-- Concatenation of a list of strings, in order. -/
def concatAll : List String → String
  | [] => ""
  | s :: ss => s ++ concatAll ss

theorem concatAll_append (a b : List String) :
    concatAll (a ++ b) = concatAll a ++ concatAll b := by
  induction a with
  | nil => simp [concatAll]
  | cons s ss ih => simp [concatAll, ih, String.append_assoc]

/-- A serialized `done` event. -/
def isDoneEv : SEvent → Bool
  | .done => true
  | _ => false

/-- A loop token tuple carries a token payload. -/
theorem isLoopToken_isTokenTuple (t : SWSTuple) (h : isLoopToken t = true) :
    isTokenTuple t = true := by
  obtain ⟨a, b, c, d⟩ := t
  cases a <;> cases b <;> cases c <;> cases d <;>
    simp_all [isLoopToken, isTokenTuple]

/-- The serialized form of a loop tuple: a status tuple becomes one
`thinking` event, a token tuple one `token` event. -/
theorem sse_shape (t : SWSTuple)
    (h : isLoopStatus t = true ∨ isLoopToken t = true) :
    (∃ l, sseOfTuple t = [.thinking l] ∧ t.snd.fst = none
        ∧ (isEarlyStatusTuple t = false → earlyLabels.contains l = false))
    ∨ (∃ c, sseOfTuple t = [.token c] ∧ t.snd.fst = some c ∧ c ≠ "") := by
  obtain ⟨a, b, c, d⟩ := t
  rcases h with h | h
  · left
    cases a with
    | none => simp [isLoopStatus] at h
    | some l =>
        cases b <;> cases c <;> cases d <;> simp [isLoopStatus] at h
        have hl : l ≠ "" := by
          rcases h with rfl | rfl | rfl | rfl <;> decide
        refine ⟨l, by simp [sseOfTuple, optTruthy, hl], rfl, ?_⟩
        intro hx
        simpa [isEarlyStatusTuple] using hx
  · right
    cases b with
    | none =>
        cases a <;> cases c <;> cases d <;> simp [isLoopToken] at h
    | some tok =>
        cases a <;> cases c <;> cases d <;> simp [isLoopToken] at h
        refine ⟨tok, ?_, rfl, h⟩
        simp [sseOfTuple, optTruthy, h]

/-- Properties of the serialized form of a loop-tuple block. -/
theorem sse_flat_spec (e : List SWSTuple)
    (hshape : ∀ t ∈ e, isLoopStatus t = true ∨ isLoopToken t = true) :
    (∀ x ∈ (e.map sseOfTuple).flatten, isRespEv x = false ∧ isDoneEv x = false)
    ∧ concatAll (((e.map sseOfTuple).flatten).filterMap tokenContent) =
        tupleTokens e
    ∧ ((∀ t ∈ e, isTokenTuple t = false) →
        ∀ x ∈ (e.map sseOfTuple).flatten, isTokenEv x = false)
    ∧ ((∀ t ∈ e, isEarlyStatusTuple t = false) →
        ∀ x ∈ (e.map sseOfTuple).flatten, isEarlyThinking x = false) := by
  induction e with
  | nil => simp [concatAll, tupleTokens]
  | cons t ts ih =>
      obtain ⟨ihA, ihB, ihC, ihD⟩ := ih (fun x hx => hshape x (by simp [hx]))
      rcases sse_shape t (hshape t (by simp)) with
        ⟨l, hsse, hnone, hearly⟩ | ⟨c, hsse, hsome, hc⟩
      · refine ⟨?_, ?_, ?_, ?_⟩
        · intro x hx
          rcases List.mem_append.mp (by simpa only [List.map_cons, List.flatten_cons, hsse] using hx) with hm | hm
          · rw [List.mem_singleton.mp hm]; exact ⟨rfl, rfl⟩
          · exact ihA x hm
        · simp only [List.map_cons, List.flatten_cons, hsse,
            List.filterMap_append, concatAll_append]
          rw [ihB]
          show concatAll (List.filterMap tokenContent [.thinking l]) ++ _ = _
          simp [tokenContent, concatAll, tupleTokens, hnone, String.empty_append]
        · intro hnt x hx
          rcases List.mem_append.mp (by simpa only [List.map_cons, List.flatten_cons, hsse] using hx) with hm | hm
          · rw [List.mem_singleton.mp hm]; rfl
          · exact ihC (fun u hu => hnt u (by simp [hu])) x hm
        · intro hne x hx
          rcases List.mem_append.mp (by simpa only [List.map_cons, List.flatten_cons, hsse] using hx) with hm | hm
          · rw [List.mem_singleton.mp hm]
            simpa [isEarlyThinking] using hearly (hne t (by simp))
          · exact ihD (fun u hu => hne u (by simp [hu])) x hm
      · refine ⟨?_, ?_, ?_, ?_⟩
        · intro x hx
          rcases List.mem_append.mp (by simpa only [List.map_cons, List.flatten_cons, hsse] using hx) with hm | hm
          · rw [List.mem_singleton.mp hm]; exact ⟨rfl, rfl⟩
          · exact ihA x hm
        · simp only [List.map_cons, List.flatten_cons, hsse,
            List.filterMap_append, concatAll_append]
          rw [ihB]
          show concatAll (List.filterMap tokenContent [.token c]) ++ _ = _
          simp [tokenContent, concatAll, tupleTokens, hsome,
            String.append_empty, String.append_assoc]
        · intro hnt x hx
          exfalso
          have h1 : isTokenTuple t = true := by simp [isTokenTuple, hsome]
          have h2 := hnt t (by simp)
          rw [h1] at h2
          exact Bool.noConfusion h2
        · intro hne x hx
          rcases List.mem_append.mp (by simpa only [List.map_cons, List.flatten_cons, hsse] using hx) with hm | hm
          · rw [List.mem_singleton.mp hm]; rfl
          · exact ihD (fun u hu => hne u (by simp [hu])) x hm

/-- On any `success = false` result the executor has set an error text. -/
theorem executeTool_success_or_error (env : ToolEnv) (name : Option String)
    (args : ToolArgs) (sid : String) (uid : Option String) :
    (executeTool env name args sid uid).success = true
    ∨ (executeTool env name args sid uid).error.isSome = true := by
  unfold executeTool
  split
  · rcases hs : env.scheduleResult (argGet args "start_date")
        (argGet args "end_date") (some (argGetD args "event_type" "all")) with
      e | sch
    · simp [getScheduleTool, hs]
    · by_cases hempty : sch.isEmpty <;> simp [getScheduleTool, hs, hempty]
  · simp
  · simp [recommendSongTool]
  · simp [getWeatherTool]
  · simp

/-! ## Claim theorems -/

/-- C1: the claim says that for every classifier tool-name string containing
a whitelisted name obscured by quotes/commas/question marks, sanitization
recovers exactly that name *as the turn's toolName*, and a string longer
than 50 characters is discarded.  The sanitization pipeline itself does
recover `"get_schedule"` from the spec's example string (and the locals
discard a 51-character name), but `router_node`'s `return` statement uses
the raw `result.tool_name`, so the turn's toolName is the raw string in
both cases: the sanitized value never reaches the state. -/
theorem C1_sanitized_name_not_returned :
    (sanitizeToolName (some " 'get_schedule', recommend_song ") =
        some "get_schedule"
      ∧ routerLocals .tool (some " 'get_schedule', recommend_song ") =
          (.tool, some "get_schedule"))
    ∧ (router_node (.ok ⟨.tool, some " 'get_schedule', recommend_song ", none⟩)
        ).tool_name = some " 'get_schedule', recommend_song "
    ∧ " 'get_schedule', recommend_song " ≠ "get_schedule"
    ∧ sanitizeToolName (some (String.mk (List.replicate 51 'a'))) = none
    ∧ (router_node
        (.ok ⟨.tool, some (String.mk (List.replicate 51 'a')), none⟩)).tool_name
        = some (String.mk (List.replicate 51 'a')) := by
  refine ⟨⟨by decide, by decide⟩, rfl, by decide, by decide, rfl⟩

/-- C2: the claim says `intent=tool` implies a whitelisted non-null toolName
and `intent≠tool` implies null toolName/toolArgs, with the downgrade to
`chat` when no valid name survives.  The downgrade is computed into the
locals (`routerLocals`), but the returned dict uses the raw classifier
values: with classifier output `intent=tool, tool_name="bogus_tool"`, the
turn keeps `intent=tool` and the non-whitelisted name; with
`intent=chat, tool_name="junk"`, the non-null name is likewise kept. -/
theorem C2_intent_invariant_violated :
    ((router_node (.ok ⟨.tool, some "bogus_tool", some []⟩)).intent = .tool
      ∧ (router_node (.ok ⟨.tool, some "bogus_tool", some []⟩)).tool_name =
          some "bogus_tool"
      ∧ validTools.contains "bogus_tool" = false)
    ∧ routerLocals .tool (some "bogus_tool") = (.chat, none)
    ∧ ((router_node (.ok ⟨.chat, some "junk", some []⟩)).intent = .chat
      ∧ (router_node (.ok ⟨.chat, some "junk", some []⟩)).tool_name =
          some "junk") := by
  exact ⟨⟨rfl, rfl, by decide⟩, by decide, rfl, rfl⟩

/-- C6 counterexample: the claim says the comma/question-mark truncation is
applied before the 50-character length check, so an over-long string whose
text before the first comma is a valid whitelist name is recovered.  In the
code the length check comes first (nodes.py line 79): this 58-character
string whose comma-prefix is `"get_schedule"` is discarded, and the router
locals downgrade to `chat`. -/
theorem C6_long_string_discarded_not_recovered :
    (("get_schedule," ++ String.mk (List.replicate 45 'a')).data.length = 58
      ∧ 50 < ("get_schedule," ++ String.mk (List.replicate 45 'a')).data.length
      ∧ pyStrip (takeBeforeChar ','
          ("get_schedule," ++ String.mk (List.replicate 45 'a'))) =
            "get_schedule")
    ∧ sanitizeToolName
        (some ("get_schedule," ++ String.mk (List.replicate 45 'a'))) = none
    ∧ routerLocals .tool
        (some ("get_schedule," ++ String.mk (List.replicate 45 'a'))) =
          (.chat, none) := by
  exact ⟨⟨by decide, by decide, by decide⟩, by decide, by decide⟩

/-- C6 (amended): quote-stripping and comma/question-mark truncation are
applied before the whitelist comparison, but the 50-character length check
is applied before all of them: a string longer than 50 characters is
discarded outright, while a non-empty string of at most 50 characters whose
truncated form is whitelisted is recovered and keeps intent `tool` (in the
router's sanitization locals). -/
theorem C6_length_check_first_then_truncation_then_whitelist
    (s : String) (hne : s ≠ "") :
    (50 < s.data.length → routerLocals .tool (some s) = (.chat, none))
    ∧ (s.data.length ≤ 50 → sanitizeShort s ∈ validTools →
        routerLocals .tool (some s) = (.tool, some (sanitizeShort s))) := by
  constructor
  · intro hlong
    have h50 : (50 < s.length) = True := eq_true hlong
    simp [routerLocals, sanitizeToolName, hne, h50]
  · intro hshort hmem
    have hlen : s.length = s.data.length := rfl
    have h50 : (50 < s.length) = False := eq_false (by rw [hlen]; omega)
    have hv : validTools.contains (sanitizeShort s) = true :=
      List.elem_eq_true_of_mem hmem
    have hnev : sanitizeShort s ≠ "" := by
      intro habs
      rw [habs] at hmem
      simp [validTools] at hmem
    simp [routerLocals, sanitizeToolName, hne, h50, hnev, hv, hmem]

/-- C6 witness: the amended order theorem applied at the spec's example
string (length ≤ 50, truncated form `"get_schedule"`). -/
theorem C6_order_witness :
    " 'get_schedule', recommend_song " ≠ ""
    ∧ ((50 < (" 'get_schedule', recommend_song " : String).data.length →
          routerLocals .tool (some " 'get_schedule', recommend_song ") =
            (.chat, none))
      ∧ ((" 'get_schedule', recommend_song " : String).data.length ≤ 50 →
          sanitizeShort " 'get_schedule', recommend_song " ∈ validTools →
          routerLocals .tool (some " 'get_schedule', recommend_song ") =
            (.tool, some (sanitizeShort " 'get_schedule', recommend_song ")))) :=
  ⟨by decide,
   C6_length_check_first_then_truncation_then_whitelist
     " 'get_schedule', recommend_song " (by decide)⟩

/-- C9: dispatching `send_fan_letter` always yields a structured failure:
the match arm calls `self._send_fan_letter`, but the class defines the
method as `send_fan_letter` (no leading underscore), so the lookup raises
`AttributeError`, which the catch-all converts into `{success: false,
error: ...}` — for every argument dict, session id, user id and
collaborator outcome.  Fan-letter persistence is unreachable through the
dispatcher. -/
theorem C9_send_fan_letter_unreachable (env : ToolEnv) (args : ToolArgs)
    (sid : String) (uid : Option String) :
    executeTool env (some "send_fan_letter") args sid uid =
      { success := false, error := some sendFanLetterAttrError } := by
  rfl

/-- C8: the dispatcher is a total function into structured results: every
`success = false` result carries an error text; an unrecognized name (one
not in the whitelist, or a missing name) yields `{success: false, error:
"알 수 없는 Tool: <name>"}`; and a fault in the registered schedule lookup is
caught and converted to `{success: false, error: <description>}`. -/
theorem C8_dispatcher_never_raises (env : ToolEnv) (name : Option String)
    (args : ToolArgs) (sid : String) (uid : Option String) :
    ((executeTool env name args sid uid).success = false →
        (executeTool env name args sid uid).error.isSome = true)
    ∧ (∀ n, name = some n → n ∉ validTools →
        executeTool env name args sid uid =
          { success := false, error := some ("알 수 없는 Tool: " ++ n) })
    ∧ (name = none →
        executeTool env name args sid uid =
          { success := false, error := some ("알 수 없는 Tool: " ++ pyShowOpt none) })
    ∧ (∀ e, name = some "get_schedule" →
        env.scheduleResult (argGet args "start_date") (argGet args "end_date")
            (some (argGetD args "event_type" "all")) = .error e →
        executeTool env name args sid uid =
          { success := false, error := some e }) := by
  refine ⟨?_, ?_, ?_, ?_⟩
  · intro hsf
    rcases executeTool_success_or_error env name args sid uid with h | h
    · rw [hsf] at h; exact Bool.noConfusion h
    · exact h
  · rintro n rfl hnot
    have h1 : n ≠ "get_schedule" := by rintro rfl; exact hnot (by decide)
    have h2 : n ≠ "send_fan_letter" := by rintro rfl; exact hnot (by decide)
    have h3 : n ≠ "recommend_song" := by rintro rfl; exact hnot (by decide)
    have h4 : n ≠ "get_weather" := by rintro rfl; exact hnot (by decide)
    unfold executeTool
    split <;> simp_all [pyShowOpt]
  · rintro rfl
    rfl
  · rintro e rfl herr
    unfold executeTool
    simp [getScheduleTool, herr]

/-- A concrete collaborator environment for witnesses. -/
def toolEnvC : ToolEnv :=
  { scheduleResult := fun _ _ _ => .error "DB down", songIndex := 0 }

/-- C8 witness: the dispatcher theorem applied at the unrecognized name
`"bogus"` and at a failing schedule lookup. -/
theorem C8_dispatcher_witness :
    executeTool toolEnvC (some "bogus") [] "s1" none =
      { success := false, error := some ("알 수 없는 Tool: " ++ "bogus") }
    ∧ executeTool toolEnvC (some "get_schedule") [] "s1" none =
      { success := false, error := some "DB down" } :=
  ⟨(C8_dispatcher_never_raises toolEnvC (some "bogus") [] "s1" none).2.1
      "bogus" rfl (by decide),
   (C8_dispatcher_never_raises toolEnvC (some "get_schedule") [] "s1" none).2.2.2
      "DB down" rfl rfl⟩

/-- C10: the non-streaming `chat` handler runs the turn on a state whose
message list holds only the current user message — it never reads the
session store — and returns the store unchanged, for every request, store
and collaborator outcome; the streaming handler's initial state, by
contrast, prepends the stored history of the session. -/
theorem C10_nonstreaming_ignores_session_store (env : Env)
    (store : SessionStore) (req : ChatRequest) (sid msg : String) :
    (chatEndpoint env store req).snd = store
    ∧ (chatInitialState req).messages = [⟨.user, req.message⟩]
    ∧ swsInitialMessages store sid msg =
        (storeGet store (effectiveSessionId sid)).getD [] ++ [⟨.user, msg⟩] := by
  exact ⟨rfl, rfl, rfl⟩

/-- C7: when the retrieval call raises during a `rag`-intent turn, the
turn still completes normally: `rag_node` substitutes the fixed fallback
passages, the composer's system prompt embeds exactly those passages as
its grounding context, and the endpoint answers with the composed text —
not an error — for every fault text, generated answer, store and request. -/
theorem C7_retrieval_fault_fail_soft (e t : String) (tEnv : ToolEnv)
    (store : SessionStore) (req : ChatRequest) :
    rag_node (.error e) = fallbackDocs
    ∧ (preComposeState ⟨.ok ⟨.rag, none, none⟩, .error e, tEnv, .ok t⟩
        (chatInitialState req)).retrieved_docs = fallbackDocs
    ∧ responseSystemPrompt (preComposeState
          ⟨.ok ⟨.rag, none, none⟩, .error e, tEnv, .ok t⟩
          (chatInitialState req)) =
        ragResponsePromptWith
          ("루미는 프리즘 행성 출신 외계인 공주야" ++ "\n" ++ "루미의 팬덤은 루미너스야")
    ∧ chatEndpoint ⟨.ok ⟨.rag, none, none⟩, .error e, tEnv, .ok t⟩ store req =
        (.ok { message := t, tool_used := none, cached := false }, store) := by
  exact ⟨rfl, rfl, rfl, rfl⟩

/-- C5: for every streaming turn whose Final tuple carries non-empty text,
the session store entry for the (effective) session id gains exactly the
current user message followed by the composed assistant message — other
sessions are untouched — and when the turn ends with empty final text the
store is returned unchanged. -/
theorem C5_session_append_exactly_one_pair (store : SessionStore)
    (message session_id : String) (trace : List GEvent) :
    ((swsAcc trace).final_response ≠ "" →
      ((stream_with_status store message session_id trace).fst.getLast? =
          some (none, none, some (swsAcc trace).final_response,
            (swsAcc trace).final_tool_name)
        ∧ storeGet (stream_with_status store message session_id trace).snd
            (effectiveSessionId session_id) =
          some ((storeGet store (effectiveSessionId session_id)).getD [] ++
            [⟨.user, message⟩, ⟨.assistant, (swsAcc trace).final_response⟩])
        ∧ ∀ k, k ≠ effectiveSessionId session_id →
            storeGet (stream_with_status store message session_id trace).snd k =
              storeGet store k))
    ∧ ((swsAcc trace).final_response = "" →
        (stream_with_status store message session_id trace).snd = store) := by
  constructor
  · intro hfr
    have hsnd : (stream_with_status store message session_id trace).snd =
        storeSet store (effectiveSessionId session_id)
          ((storeGet store (effectiveSessionId session_id)).getD [] ++
            [⟨.user, message⟩, ⟨.assistant, (swsAcc trace).final_response⟩]) := by
      simp [stream_with_status, hfr]
    refine ⟨?_, ?_, ?_⟩
    · simp [stream_with_status, List.getLast?_append]
    · rw [hsnd, storeGet_set_self]
    · intro k hk
      rw [hsnd, storeGet_set_other _ _ _ _ hk]
  · intro hfr
    simp [stream_with_status, hfr]

/-- C5 witness: the append theorem applied to a one-token stream on an
empty store: the session gains exactly the user/assistant pair. -/
theorem C5_session_append_witness :
    storeGet (stream_with_status [] "안녕" "s1"
        [.message "response" true "반가워"]).snd "s1" =
      some [⟨.user, "안녕"⟩, ⟨.assistant, "반가워"⟩] := by
  have h := (C5_session_append_exactly_one_pair [] "안녕" "s1"
      [.message "response" true "반가워"]).1 (by decide)
  simpa [effectiveSessionId, storeGet] using h.2.1

/-- C4: the claim says the final response's `toolUsed` equals the executed
tool's name in both the non-streaming body and the streaming Final event.
Non-streaming this holds (first conjunct: a `get_schedule` turn answers
with `tool_used = some "get_schedule"`), but in streaming mode
`stream_with_status` reads `node_output.get("tool_name")` from the tool
node's update dict, which only contains `tool_result`, so the Final event
carries no tool name: the same turn streams
`response ... none` (second conjunct). -/
theorem C4_streaming_final_loses_tool_name :
    (chatEndpoint ⟨.ok ⟨.tool, some "get_schedule", some []⟩, .ok [], toolEnvC,
        .ok "방송은 금요일이야!"⟩ [] ⟨"오늘 방송 언제야?", "s1", none⟩).fst =
      .ok { message := "방송은 금요일이야!", tool_used := some "get_schedule",
            cached := false }
    ∧ (generateEvents [] "오늘 방송 언제야?" "s1"
        [.updates [("router", .router ⟨.tool, some "get_schedule", some []⟩)],
         .updates [("tool", .tool { success := true })],
         .message "response" true "방송은 금요일이야!"]).fst =
      [.thinking "루미 생각 중...", .thinking "도구 실행 중...",
       .token "방송은 금요일이야!",
       .response "방송은 금요일이야!" none, .done] := by
  exact ⟨rfl, by decide⟩

/-- C3 counterexample: the claim says each stage's Status event precedes
the first Token of that stage's work and exactly one Final precedes Done.
Both parts fail: (i) the `updates` event of the composing (`response`)
node is produced at node completion, after its token chunks, so the
composing stage's `thinking` event is observed after its first token;
(ii) a turn whose composer streams no non-empty chunk emits no `response`
event at all (`if final:` is falsy on the empty string), yet still ends
with `done`. -/
theorem C3_status_after_token_and_missing_final :
    ((generateEvents [] "hi" "s"
        [.updates [("router", .router ⟨.chat, none, none⟩)],
         .message "response" true "안",
         .updates [("response", .response [⟨.assistant, "안"⟩])]]).fst =
      [.thinking "루미 생각 중...", .token "안", .thinking "응답 작성 중...",
       .response "안" none, .done])
    ∧ ((generateEvents [] "hi" "s"
        [.updates [("router", .router ⟨.chat, none, none⟩)],
         .message "response" false "미안, 오류가 생겼어! 다시 말해줄래? (boom)",
         .updates [("response", .response
            [⟨.assistant, "미안, 오류가 생겼어! 다시 말해줄래? (boom)"⟩])]]).fst =
      [.thinking "루미 생각 중...", .thinking "응답 작성 중...", .done])
    ∧ ((generateEvents [] "hi" "s"
        [.updates [("router", .router ⟨.chat, none, none⟩)],
         .message "response" false "미안, 오류가 생겼어! 다시 말해줄래? (boom)",
         .updates [("response", .response
            [⟨.assistant, "미안, 오류가 생겼어! 다시 말해줄래? (boom)"⟩])]]).fst.countP
          isRespEv = 0) := by
  exact ⟨by decide, by decide, by decide⟩

/-- C3 (amended): for every streaming turn whose stream splits into a
phase with no composer token chunks followed by a phase with no
router/rag/tool updates (the order the per-node-completion `updates`
semantics produces), the serialized stream satisfies: every `thinking`
event of a pre-composing stage is observed before every `token` event;
at most one `response` (Final) event is emitted — exactly one, carrying
the turn's final text, when some non-empty token was generated, and none
otherwise; the concatenation of the `token` events' contents equals the
final text; `done` is the last event and occurs exactly once; and on a
stream fault the `error` event is followed by the terminal `done`. -/
theorem C3_stream_order_amended (store : SessionStore)
    (message session_id : String) (t1 t2 : List GEvent)
    (h1 : ∀ ev ∈ t1, isRespChunk ev = false)
    (h2 : ∀ ev ∈ t2, earlyStageUpd ev = false) :
    (∃ a b, (generateEvents store message session_id (t1 ++ t2)).fst = a ++ b
        ∧ (∀ x ∈ a, isTokenEv x = false)
        ∧ (∀ x ∈ b, isEarlyThinking x = false))
    ∧ (generateEvents store message session_id (t1 ++ t2)).fst.countP isRespEv =
        (if (swsAcc (t1 ++ t2)).final_response = "" then 0 else 1)
    ∧ ((swsAcc (t1 ++ t2)).final_response ≠ "" →
        SEvent.response (swsAcc (t1 ++ t2)).final_response
            (swsAcc (t1 ++ t2)).final_tool_name ∈
          (generateEvents store message session_id (t1 ++ t2)).fst)
    ∧ concatAll
        ((generateEvents store message session_id (t1 ++ t2)).fst.filterMap
          tokenContent) = (swsAcc (t1 ++ t2)).final_response
    ∧ (generateEvents store message session_id (t1 ++ t2)).fst.getLast? =
        some .done
    ∧ (generateEvents store message session_id (t1 ++ t2)).fst.countP isDoneEv = 1
    ∧ (∀ k err,
        ∃ p, generateEventsFaulty store message session_id (t1 ++ t2) k err =
          p ++ [.error err, .done]) := by
  obtain ⟨e1, ho1, hf1, hs1, hnt1, _⟩ := swsFold_spec t1 ⟨"", none, none, []⟩
  obtain ⟨e2, ho2, hf2, hs2, _, hne2⟩ :=
    swsFold_spec t2 (t1.foldl stepGEvent ⟨"", none, none, []⟩)
  have hsplit : swsAcc (t1 ++ t2) =
      t2.foldl stepGEvent (t1.foldl stepGEvent ⟨"", none, none, []⟩) := by
    unfold swsAcc
    rw [List.foldl_append]
  have hout : (swsAcc (t1 ++ t2)).out = e1 ++ e2 := by
    rw [hsplit, ho2, ho1]
    simp
  have hfr : (swsAcc (t1 ++ t2)).final_response = tupleTokens (e1 ++ e2) := by
    rw [hsplit, hf2, hf1, tupleTokens_append]
    show ("" : String) ++ _ ++ _ = _
    rw [String.empty_append]
  have hnt1' : ∀ t ∈ e1, isTokenTuple t = false := hnt1 h1
  have hne2' : ∀ t ∈ e2, isEarlyStatusTuple t = false := hne2 h2
  obtain ⟨hA1, hB1, hC1, hD1⟩ := sse_flat_spec e1 hs1
  obtain ⟨hA2, hB2, hC2, hD2⟩ := sse_flat_spec e2 hs2
  have hF : sseOfTuple (none, none, some (swsAcc (t1 ++ t2)).final_response,
        (swsAcc (t1 ++ t2)).final_tool_name) =
      (if (swsAcc (t1 ++ t2)).final_response = "" then []
       else [.response (swsAcc (t1 ++ t2)).final_response
              (swsAcc (t1 ++ t2)).final_tool_name]) := by
    by_cases hfre : (swsAcc (t1 ++ t2)).final_response = "" <;>
      simp [sseOfTuple, optTruthy, hfre]
  have hevs : (generateEvents store message session_id (t1 ++ t2)).fst =
      (e1.map sseOfTuple).flatten ++
        ((e2.map sseOfTuple).flatten ++
          ((if (swsAcc (t1 ++ t2)).final_response = "" then []
            else [SEvent.response (swsAcc (t1 ++ t2)).final_response
                   (swsAcc (t1 ++ t2)).final_tool_name]) ++ [SEvent.done])) := by
    have hres : (stream_with_status store message session_id (t1 ++ t2)).fst =
        (swsAcc (t1 ++ t2)).out ++
          [(none, none, some (swsAcc (t1 ++ t2)).final_response,
            (swsAcc (t1 ++ t2)).final_tool_name)] := rfl
    have hgen : (generateEvents store message session_id (t1 ++ t2)).fst =
        (((stream_with_status store message session_id
            (t1 ++ t2)).fst).map sseOfTuple).flatten ++ [SEvent.done] := rfl
    rw [hgen, hres, hout]
    simp [List.map_append, List.flatten_append, hF, List.append_assoc]
  refine ⟨?_, ?_, ?_, ?_, ?_, ?_, ?_⟩
  · refine ⟨(e1.map sseOfTuple).flatten, _, hevs, ?_, ?_⟩
    · exact hC1 hnt1'
    · intro x hx
      rcases List.mem_append.mp hx with hm | hm
      · exact hD2 hne2' x hm
      · rcases List.mem_append.mp hm with hm2 | hm2
        · by_cases hfre : (swsAcc (t1 ++ t2)).final_response = ""
          · rw [if_pos hfre] at hm2; simp at hm2
          · rw [if_neg hfre] at hm2
            rw [List.mem_singleton.mp hm2]; rfl
        · rw [List.mem_singleton.mp hm2]; rfl
  · rw [hevs]
    simp only [List.countP_append]
    have c1 : ((e1.map sseOfTuple).flatten).countP isRespEv = 0 :=
      List.countP_eq_zero.mpr (fun x hx => by simp [(hA1 x hx).1])
    have c2 : ((e2.map sseOfTuple).flatten).countP isRespEv = 0 :=
      List.countP_eq_zero.mpr (fun x hx => by simp [(hA2 x hx).1])
    have cd : ([SEvent.done] : List SEvent).countP isRespEv = 0 := by decide
    by_cases hfre : (swsAcc (t1 ++ t2)).final_response = "" <;>
      simp [hfre, c1, c2, cd, isRespEv]
  · intro hfre
    rw [hevs]
    simp [List.mem_append, if_neg hfre]
  · rw [hevs]
    simp only [List.filterMap_append, concatAll_append]
    rw [hB1, hB2]
    have hFtok : concatAll (List.filterMap tokenContent
        (if (swsAcc (t1 ++ t2)).final_response = "" then []
         else [SEvent.response (swsAcc (t1 ++ t2)).final_response
                (swsAcc (t1 ++ t2)).final_tool_name])) = "" := by
      by_cases hfre : (swsAcc (t1 ++ t2)).final_response = "" <;>
        simp [hfre, tokenContent, concatAll]
    have hDtok : concatAll (List.filterMap tokenContent [SEvent.done]) = "" := by
      simp [tokenContent, concatAll]
    rw [hFtok, hDtok, hfr, tupleTokens_append]
    simp [String.append_empty]
  · rw [hevs]
    simp [List.getLast?_append]
  · rw [hevs]
    simp only [List.countP_append]
    have c1 : ((e1.map sseOfTuple).flatten).countP isDoneEv = 0 :=
      List.countP_eq_zero.mpr (fun x hx => by simp [(hA1 x hx).2])
    have c2 : ((e2.map sseOfTuple).flatten).countP isDoneEv = 0 :=
      List.countP_eq_zero.mpr (fun x hx => by simp [(hA2 x hx).2])
    by_cases hfre : (swsAcc (t1 ++ t2)).final_response = "" <;>
      simp [hfre, c1, c2, isDoneEv]
  · intro k err
    exact ⟨_, rfl⟩

/-- C3 witness: the ordering theorem applied to a concrete well-phased
stream (router and tool updates, then composer tokens and completion). -/
theorem C3_stream_order_witness :
    (∀ ev ∈ [GEvent.updates [("router", .router ⟨.tool, some "get_schedule", some []⟩)],
             GEvent.updates [("tool", .tool { success := true })]],
        isRespChunk ev = false)
    ∧ (∀ ev ∈ [GEvent.message "response" true "방송은",
               GEvent.message "response" true " 금요일!",
               GEvent.updates [("response", .response [⟨.assistant, "방송은 금요일!"⟩])]],
        earlyStageUpd ev = false)
    ∧ ((generateEvents [] "오늘 방송 언제야?" "s1"
          ([GEvent.updates [("router", .router ⟨.tool, some "get_schedule", some []⟩)],
            GEvent.updates [("tool", .tool { success := true })]] ++
           [GEvent.message "response" true "방송은",
            GEvent.message "response" true " 금요일!",
            GEvent.updates [("response", .response [⟨.assistant, "방송은 금요일!"⟩])]])).fst.getLast?
        = some .done) := by
  refine ⟨by decide, by decide, ?_⟩
  exact (C3_stream_order_amended [] "오늘 방송 언제야?" "s1" _ _
    (by decide) (by decide)).2.2.2.2.1

end Lumi
